import Mathlib

/-!
Verification of the MCPHub session-routing and OAuth-persistence core.

This file gives a shallow embedding of the parts of the MCPHub code base
that the specification talks about:

* `src/services/sseService.ts` — bearer authentication, the downstream
  session map (`transports`), SSE and streamable-HTTP request handlers,
  session close handling, and the connection counter.
* `src/services/oauthSettingsStore.ts` — `mutateOAuthSettings`,
  `persistTokens`, `clearOAuthData`.
* `src/controllers/oauthCallbackController.ts` — `extractServerNameFromState`
  and the server-resolution order of `handleOAuthCallback`.
* `src/services/oauthService.ts` — `getServerOAuthToken`.
* The smart-routing fragment of `mcpService.ts` and the environment-variable
  expansion of `config/index.ts`, which are exercised by the repository's
  tests but whose sources are not part of the snapshot; those definitions
  are modelled from the specification and marked as such.

JavaScript objects used as string-keyed dictionaries (the `transports`
session map, `settings.mcpServers`) are embedded as association lists with
JavaScript assignment/`delete` semantics.  JavaScript truthiness on
optional strings (`undefined`/`''` falsy) is made explicit via `strTruthy`.
-/

namespace MCPHub

/-- Lookup in a JavaScript-object-style string-keyed dictionary
(`obj[k]`, yielding `undefined` when the key is absent). -/
def objLookup {β : Type} (k : String) : List (String × β) → Option β
  | [] => none
  | p :: rest => if p.1 = k then some p.2 else objLookup k rest

/-- Assignment `obj[k] = v`: replaces the value at an existing key in
place, otherwise appends the new key (JavaScript insertion order). -/
def objSet {β : Type} (k : String) (v : β) : List (String × β) → List (String × β)
  | [] => [(k, v)]
  | p :: rest => if p.1 = k then (k, v) :: rest else p :: objSet k v rest

/-- Deletion `delete obj[k]`: removes every entry stored under key `k`
(with the no-duplicate-keys invariant of JavaScript objects there is at
most one). -/
def objDelete {β : Type} (k : String) : List (String × β) → List (String × β)
  | [] => []
  | p :: rest => if p.1 = k then objDelete k rest else p :: objDelete k rest

/-- JavaScript truthiness of an optional string: `undefined` and the
empty string are falsy, every other string is truthy. -/
def strTruthy : Option String → Bool
  | none => false
  | some s => s ≠ ""

/-- JavaScript `String#startsWith`, embedded at the character level. -/
def strStartsWith (s pre : String) : Bool :=
  pre.data.isPrefixOf s.data

/-- The `routing` block of `systemConfig` (`RoutingConfig` in
`src/types`).  Absent fields behave like their JavaScript falsy/default
values, matching the default object used in `sseService.ts`. -/
structure RoutingConfig where
  enableGlobalRoute : Bool := true
  enableGroupNameRoute : Bool := true
  enableBearerAuth : Bool := false
  bearerAuthKey : String := ""
  skipAuth : Bool := false
deriving Repr, DecidableEq

/-- The `systemConfig` block of the settings document (only the part the
embedded code reads). -/
structure SystemConfig where
  routing : Option RoutingConfig := none
deriving Repr, DecidableEq

/-- A `pendingAuthorization` record inside a server's OAuth settings. -/
structure PendingAuthorization where
  authorizationUrl : Option String := none
  state : Option String := none
  codeVerifier : Option String := none
  createdAt : Nat := 0
deriving Repr, DecidableEq

/-- The `dynamicRegistration` block of an `OAuthConfig`. -/
structure DynamicRegistrationConfig where
  enabled : Bool := false
deriving Repr, DecidableEq

/-- A server's `oauth` configuration block (`OAuthConfig` in `src/types`).
A field holding `none` models an absent (`undefined`) JSON field. -/
structure OAuthConfig where
  clientId : Option String := none
  clientSecret : Option String := none
  scopes : Option (List String) := none
  accessToken : Option String := none
  refreshToken : Option String := none
  authorizationEndpoint : Option String := none
  tokenEndpoint : Option String := none
  dynamicRegistration : Option DynamicRegistrationConfig := none
  pendingAuthorization : Option PendingAuthorization := none
deriving Repr, DecidableEq

/-- A server entry of `mcpServers` (only the fields the embedded code
reads). -/
structure ServerConfig where
  oauth : Option OAuthConfig := none
deriving Repr, DecidableEq

/-- The configuration document returned by `loadSettings()`. -/
structure McpSettings where
  mcpServers : List (String × ServerConfig) := []
  systemConfig : Option SystemConfig := none
deriving Repr, DecidableEq

/-- The `settings.systemConfig?.routing || {enableGlobalRoute: true, …}`
defaulting used by every handler in `sseService.ts`. -/
def routingOrDefault (systemConfig : Option SystemConfig) : RoutingConfig :=
  match systemConfig with
  | some sc => sc.routing.getD {}
  | none => {}

/-- Embedding of `validateBearerAuth` (`sseService.ts`): when
`routing.enableBearerAuth` is set, the `Authorization` header must be
present, start with `"Bearer "`, and the remainder (`substring(7)`) must
equal `routing.bearerAuthKey`; otherwise every request passes. -/
def validateBearerAuth (settings : McpSettings) (authorization : Option String) : Bool :=
  let routingConfig := routingOrDefault settings.systemConfig
  if routingConfig.enableBearerAuth then
    match authorization with
    | none => false
    | some authHeader =>
      if strStartsWith authHeader "Bearer " then
        authHeader.drop 7 == routingConfig.bearerAuthKey
      else
        false
  else
    true

/-- An entry of the `transports` session map: the routing group captured
from the request URL (`req.params.group`, which may be absent). -/
structure SessionEntry where
  group : Option String
deriving Repr, DecidableEq

/-- The mutable state owned by `sseService.ts` (plus the per-session MCP
server instances of `mcpService.ts`): the `transports` map keyed by
session id, the set of session ids holding an MCP server instance, and
the position of the `randomUUID` supply. -/
structure HubState where
  transports : List (String × SessionEntry) := []
  sessionServers : List String := []
  uuidCounter : Nat := 0
deriving Repr, DecidableEq

/-- Embedding of `getGroup` (`sseService.ts`):
`transports[sessionId]?.group || ''`. -/
def getGroup (st : HubState) (sessionId : String) : String :=
  match objLookup sessionId st.transports with
  | some entry => entry.group.getD ""
  | none => ""

/-- Embedding of `getConnectionCount` (`sseService.ts`):
`Object.keys(transports).length`. -/
def getConnectionCount (st : HubState) : Nat :=
  st.transports.length

/-- The HTTP-level outcome of a downstream request handler. -/
inductive HttpResult where
  | unauthorized
  | forbidden
  | badRequest
  | notFound
  | sessionOpened (sessionId : String)
  | handled
deriving Repr, DecidableEq

/-- Embedding of `handleSseConnection` (`sseService.ts`).  `uuidGen`
models the UUID supply used by the SDK transport for its `sessionId`;
`authorization` is the `Authorization` header; `group` is
`req.params.group`.  The 401 and 403 early returns leave the state
untouched; a successful open registers the transport under the fresh
session id and creates the per-session MCP server (`getMcpServer`,
modelled from the spec as the session-server set). -/
def handleSseConnection (uuidGen : Nat → String) (settings : McpSettings)
    (authorization : Option String) (group : Option String)
    (st : HubState) : HttpResult × HubState :=
  if ¬ validateBearerAuth settings authorization then
    (.unauthorized, st)
  else
    let routingConfig := routingOrDefault settings.systemConfig
    if group.isNone && !routingConfig.enableGlobalRoute then
      (.forbidden, st)
    else
      let sessionId := uuidGen st.uuidCounter
      (.sessionOpened sessionId,
        { st with
            transports := objSet sessionId ⟨group⟩ st.transports,
            sessionServers :=
              if sessionId ∈ st.sessionServers then st.sessionServers
              else sessionId :: st.sessionServers,
            uuidCounter := st.uuidCounter + 1 })

/-- Embedding of `handleSseMessage` (`sseService.ts`): bearer gate, then
`sessionId` query-parameter validation (`!sessionId` rejects the missing
and the empty string), then the `transports` lookup; a found transport
forwards the message (no session-map mutation). -/
def handleSseMessage (settings : McpSettings) (authorization : Option String)
    (sessionId : Option String) (st : HubState) : HttpResult :=
  if ¬ validateBearerAuth settings authorization then
    .unauthorized
  else
    match sessionId with
    | none => .badRequest
    | some sid =>
      if sid = "" then .badRequest
      else
        match objLookup sid st.transports with
        | none => .notFound
        | some _ => .handled

/-- Embedding of `handleMcpPostRequest` (`sseService.ts`).  A request
carrying a known `mcp-session-id` header is forwarded to the existing
transport; otherwise a new `StreamableHTTPServerTransport` is created
whose `sessionIdGenerator` is `randomUUID` (modelled by `uuidGen` applied
at the current supply position).  For an `initialize` request the SDK
invokes `onsessioninitialized`, which registers
`transports[newSessionId] = {transport, group}` and creates the
per-session MCP server; a non-initialize request on a fresh transport is
rejected by the SDK without registering anything. -/
def handleMcpPostRequest (uuidGen : Nat → String) (settings : McpSettings)
    (authorization : Option String) (sessionId : Option String)
    (group : Option String) (isInitRequest : Bool)
    (st : HubState) : HttpResult × HubState :=
  if ¬ validateBearerAuth settings authorization then
    (.unauthorized, st)
  else
    let routingConfig := routingOrDefault settings.systemConfig
    if group.isNone && !routingConfig.enableGlobalRoute then
      (.forbidden, st)
    else
      let existing :=
        match sessionId with
        | some sid => sid ≠ "" && (objLookup sid st.transports).isSome
        | none => false
      if existing then
        (.handled, st)
      else if isInitRequest then
        let newSessionId := uuidGen st.uuidCounter
        (.sessionOpened newSessionId,
          { st with
              transports := objSet newSessionId ⟨group⟩ st.transports,
              sessionServers :=
                if newSessionId ∈ st.sessionServers then st.sessionServers
                else newSessionId :: st.sessionServers,
              uuidCounter := st.uuidCounter + 1 })
      else
        (.badRequest, st)

/-- Embedding of `handleMcpOtherRequest` (`sseService.ts`), serving GET
and DELETE on the streamable-HTTP endpoint: bearer gate, then
`!sessionId || !transports[sessionId]` rejects with 400, otherwise the
request is forwarded to the stored transport. -/
def handleMcpOtherRequest (settings : McpSettings) (authorization : Option String)
    (sessionId : Option String) (st : HubState) : HttpResult :=
  if ¬ validateBearerAuth settings authorization then
    .unauthorized
  else
    match sessionId with
    | none => .badRequest
    | some sid =>
      if sid = "" then .badRequest
      else if (objLookup sid st.transports).isSome then .handled
      else .badRequest

/-- Embedding of the session tear-down shared by the SSE `res.on('close')`
handler and the streamable-HTTP `transport.onclose` handler
(`sseService.ts`): `delete transports[sessionId]` followed by
`deleteMcpServer(sessionId)`.  `deleteMcpServer` is modelled from the
spec (its source, `mcpService.ts`, is not in the snapshot): it removes
the per-session MCP server instance keyed by the session id. -/
def closeSession (sessionId : String) (st : HubState) : HubState :=
  { st with
      transports := objDelete sessionId st.transports,
      sessionServers := st.sessionServers.filter (fun a => a ≠ sessionId) }

/-- Embedding of the streamable-HTTP `transport.onclose` callback, which
runs the tear-down only when the transport has a session id
(`if (transport.sessionId)`). -/
def closeStreamableTransport (transportSessionId : Option String) (st : HubState) : HubState :=
  match transportSessionId with
  | some sid => if sid ≠ "" then closeSession sid st else st
  | none => st

/-- Embedding of `mutateOAuthSettings` (`oauthSettingsStore.ts`): looks
the server up in `settings.mcpServers`; an unknown server yields
`undefined` without persisting anything.  Otherwise an empty `oauth`
block is created if absent, the mutator is applied to it, and the
updated settings document is persisted (`saveSettings` is modelled as
succeeding).  Returns the updated server configuration together with the
persisted document. -/
def mutateOAuthSettings (settings : McpSettings) (serverName : String)
    (mutator : OAuthConfig → OAuthConfig) : Option (McpSettings × ServerConfig) :=
  match objLookup serverName settings.mcpServers with
  | none => none
  | some serverConfig =>
    let oauth := serverConfig.oauth.getD {}
    let newServerConfig : ServerConfig := { serverConfig with oauth := some (mutator oauth) }
    some
      ({ settings with mcpServers := objSet serverName newServerConfig settings.mcpServers },
        newServerConfig)

/-- The argument record of `persistTokens`.  `refreshToken : none` models
an absent (`undefined`) field, `some none` models an explicit `null`, and
`some (some s)` a string value (possibly empty, which JavaScript treats
as falsy). -/
structure TokenUpdate where
  accessToken : String
  refreshToken : Option (Option String) := none
  clearPendingAuthorization : Bool := false
deriving Repr, DecidableEq

/-- The mutator closure of `persistTokens` (`oauthSettingsStore.ts`):
always sets `oauth.accessToken`; replaces `oauth.refreshToken` with a
truthy new value, deletes it when the new value is present but falsy
(`null` or `''`), and leaves it untouched when the field is absent;
removes `pendingAuthorization` when `clearPendingAuthorization` is set
and a record exists. -/
def persistTokensMutator (tokens : TokenUpdate) (oauth : OAuthConfig) : OAuthConfig :=
  let withAccess : OAuthConfig := { oauth with accessToken := some tokens.accessToken }
  let withRefresh : OAuthConfig :=
    match tokens.refreshToken with
    | none => withAccess
    | some newRefreshToken =>
      if strTruthy newRefreshToken then { withAccess with refreshToken := newRefreshToken }
      else { withAccess with refreshToken := none }
  if tokens.clearPendingAuthorization && withRefresh.pendingAuthorization.isSome then
    { withRefresh with pendingAuthorization := none }
  else
    withRefresh

/-- Embedding of `persistTokens` (`oauthSettingsStore.ts`): applies the
token mutator through `mutateOAuthSettings`.  An unknown server yields
`undefined`. -/
def persistTokens (settings : McpSettings) (serverName : String)
    (tokens : TokenUpdate) : Option (McpSettings × ServerConfig) :=
  mutateOAuthSettings settings serverName (persistTokensMutator tokens)

/-- Embedding of `clearOAuthData` (`oauthSettingsStore.ts`): deletes the
token fields, the client credentials, and/or the pending authorization
depending on the requested scope. -/
def clearOAuthData (settings : McpSettings) (serverName : String)
    (scope : String) : Option (McpSettings × ServerConfig) :=
  mutateOAuthSettings settings serverName (fun oauth =>
    let afterTokens : OAuthConfig :=
      if scope = "tokens" || scope = "all" then
        { oauth with accessToken := none, refreshToken := none }
      else oauth
    let afterClient : OAuthConfig :=
      if scope = "client" || scope = "all" then
        { afterTokens with clientId := none, clientSecret := none }
      else afterTokens
    if scope = "verifier" || scope = "all" then
      { afterClient with pendingAuthorization := none }
    else afterClient)

/-- Runtime record for an upstream server as seen by the OAuth callback
controller (`ServerInfo` in `src/types`; only the identity matters for
the resolution order). -/
structure ServerInfo where
  name : String
deriving Repr, DecidableEq

/-- Embedding of the colon-delimiter fallback inside
`extractServerNameFromState` (`oauthCallbackController.ts`):
`stateValue.indexOf(':')` must be strictly positive for
`stateValue.slice(0, separatorIndex)` to be returned. -/
def colonPrefixName (stateValue : String) : Option String :=
  match stateValue.data.findIdx? (fun c => c = ':') with
  | some separatorIndex =>
    if 0 < separatorIndex then some (String.mk (stateValue.data.take separatorIndex))
    else none
  | none => none

/-- Embedding of `extractServerNameFromState`
(`oauthCallbackController.ts`).  `decodeStatePayload` models the `try`
block (URL-safe base64 decoding followed by `JSON.parse`), returning the
payload's `server` field when the whole block succeeds with a string
value; any failure falls back to the text before the first `:`. -/
def extractServerNameFromState (decodeStatePayload : String → Option String)
    (stateValue : String) : Option String :=
  match decodeStatePayload stateValue with
  | some server => some server
  | none => colonPrefixName stateValue

/-- Embedding of the server-resolution step of `handleOAuthCallback`
(`oauthCallbackController.ts`, lines 173–185): the stored
pending-authorization state is matched first (`getServerByOAuthState`);
only when no server matches is the state parameter decoded and the
server looked up by name (`getServerByName`). -/
def resolveOAuthCallbackServer
    (getServerByOAuthState : String → Option ServerInfo)
    (getServerByName : String → Option ServerInfo)
    (decodeStatePayload : String → Option String)
    (stateParam : String) : Option ServerInfo :=
  match getServerByOAuthState stateParam with
  | some serverInfo => some serverInfo
  | none =>
    match extractServerNameFromState decodeStatePayload stateParam with
    | some decodedServerName => getServerByName decodedServerName
    | none => none

/-- Dynamically registered OAuth client information, as returned by
`initializeOAuthForServer` (`oauthClientRegistration.ts`). -/
structure OAuthClientInformation where
  clientId : String := ""
deriving Repr, DecidableEq

/-- The lifecycle status of an upstream server (`ServerInfo.status`). -/
inductive ServerStatus where
  | connecting
  | connected
  | disconnected
  | oauthRequired
deriving Repr, DecidableEq

/-- The state visible to the OAuth coordinator: the persisted settings
document and the per-server runtime status. -/
structure OAuthRuntimeState where
  settings : McpSettings
  serverStatus : List (String × ServerStatus) := []
deriving Repr, DecidableEq

/-- Embedding of `getServerOAuthToken` (`oauthService.ts`).  The helpers
of `oauthClientRegistration.ts` are abstracted: `initOAuthForServer`
models `initializeOAuthForServer` (`.error` models a thrown exception,
`.ok none` a failed registration) and `refreshTokenGrant` models
`refreshAccessToken` (`.error` models a thrown exception, `.ok` the new
access token).  A failed refresh is caught, logged, and `undefined` is
returned; no settings field and no server status is modified on that
path. -/
def getServerOAuthToken
    (initOAuthForServer : String → ServerConfig → Except String (Option OAuthClientInformation))
    (refreshTokenGrant : String → ServerConfig → OAuthClientInformation → String → Except String String)
    (settings : McpSettings) (serverName : String) : Option String :=
  match objLookup serverName settings.mcpServers with
  | none => none
  | some serverConfig =>
    match serverConfig.oauth with
    | none => none
    | some oauth =>
      if strTruthy oauth.accessToken then
        oauth.accessToken
      else if (oauth.dynamicRegistration.map (fun d => d.enabled)).getD false then
        match initOAuthForServer serverName serverConfig with
        | .error _ => none
        | .ok none => none
        | .ok (some clientInfo) =>
          if strTruthy oauth.refreshToken then
            match oauth.refreshToken with
            | some refreshToken =>
              match refreshTokenGrant serverName serverConfig clientInfo refreshToken with
              | .ok accessToken => some accessToken
              | .error _ => none
            | none => none
          else
            none
      else if strTruthy oauth.clientId && strTruthy oauth.accessToken then
        oauth.accessToken
      else
        none

/-- Token acquisition as a transition on the coordinator state: the
embedded `getServerOAuthToken` reads the settings document and returns a
token or `undefined`; it performs no mutation of the settings or of any
server status (the token persistence inside a *successful* refresh lives
in `oauthClientRegistration.ts` and is outside this model, which is only
evaluated on the failure path). -/
def acquireTokenForServer
    (initOAuthForServer : String → ServerConfig → Except String (Option OAuthClientInformation))
    (refreshTokenGrant : String → ServerConfig → OAuthClientInformation → String → Except String String)
    (rt : OAuthRuntimeState) (serverName : String) : Option String × OAuthRuntimeState :=
  (getServerOAuthToken initOAuthForServer refreshTokenGrant rt.settings serverName, rt)

/-- Modelled from the spec: the smart-routing scope carried by a
session's group string (`mcpService.ts` is not in the snapshot).  The
literal group `$smart` is the global smart scope and `$smart/<groupId>`
is the group smart scope; every other group string is a non-smart scope
(`none`). -/
def smartScopeOfGroup (group : String) : Option (Option String) :=
  if group = "$smart" then some none
  else if strStartsWith group "$smart/" then some (some (group.drop 7))
  else none

/-- Modelled from the spec: the scope phrase interpolated into the two
smart-routing meta-tool descriptions — "all available servers" in the
global smart scope and the quoted group name in a group smart scope. -/
def scopeDescriptor : Option String → String
  | none => "all available servers"
  | some groupId => "servers in the \"" ++ groupId ++ "\" group"

/-- Modelled from the spec: the description of the `search_tools`
meta-tool, interpolated with the scope phrase. -/
def searchToolsDescription (scope : Option String) : String :=
  "Search for relevant tools across " ++ scopeDescriptor scope ++
    " using a natural language query."

/-- Modelled from the spec: the description of the `call_tool` meta-tool,
interpolated with the scope phrase. -/
def callToolDescription (scope : Option String) : String :=
  "Execute a tool found on " ++ scopeDescriptor scope ++
    " with the given arguments."

/-- Name and description of a tool as emitted by `tools/list`. -/
structure ToolSummary where
  name : String
  description : String
deriving Repr, DecidableEq

/-- Modelled from the spec: the smart-routing branch of
`handleListToolsRequest` (`mcpService.ts` is not in the snapshot; the
repository's tests pin this behaviour).  In a smart scope the result is
exactly the two meta-tools `search_tools` then `call_tool` with
scope-interpolated descriptions, regardless of the group's membership;
non-smart scopes are outside the modelled fragment (`none`). -/
def handleListToolsRequest (st : HubState) (sessionId : String) : Option (List ToolSummary) :=
  match smartScopeOfGroup (getGroup st sessionId) with
  | some scope =>
    some
      [⟨"search_tools", searchToolsDescription scope⟩,
        ⟨"call_tool", callToolDescription scope⟩]
  | none => none

/-- Arguments of a `tools/call` of `search_tools`: `query` may be absent,
`limit` defaults to 10 and is capped at 50. -/
structure SmartToolArgs where
  query : Option String := none
  limit : Option Nat := none
deriving Repr, DecidableEq

/-- A recorded invocation of `vectorSearchService.searchToolsByVector`:
the query, the effective limit, and the optional server allowlist. -/
structure SearchInvocation where
  query : String
  limit : Nat
  serverFilter : Option (List String)
deriving Repr, DecidableEq

/-- Outcome of a smart-scope `tools/call`: the error flag, the response
content text, and the vector-search invocation that was performed (or
`none` when no search ran). -/
structure CallToolOutcome where
  isError : Bool
  contentText : String
  searchCall : Option SearchInvocation
deriving Repr, DecidableEq

/-- Modelled from the spec: the `search_tools` handler of the smart
scopes (`mcpService.ts` is not in the snapshot; the repository's tests
pin this behaviour).  A missing or empty `query` produces an
`isError=true` response whose content contains "Query parameter is
required", and no vector search runs.  Otherwise the vector search is
invoked with the query, the capped limit, and the scope's server
allowlist: no filter in the global smart scope, the group's member list
in a group smart scope. -/
def handleCallSearchTools
    (searchToolsByVector : String → Nat → Option (List String) → List String)
    (getServersInGroup : String → List String)
    (scope : Option String) (args : SmartToolArgs) : CallToolOutcome :=
  match args.query with
  | none => ⟨true, "Error: Query parameter is required. Please provide a search query.", none⟩
  | some query =>
    if query = "" then
      ⟨true, "Error: Query parameter is required. Please provide a search query.", none⟩
    else
      let limit := min (args.limit.getD 10) 50
      let serverFilter := scope.map getServersInGroup
      let results := searchToolsByVector query limit serverFilter
      ⟨false, String.intercalate "\n" results, some ⟨query, limit, serverFilter⟩⟩

/-- Modelled from the spec: the smart-routing branch of
`handleCallToolRequest` (`mcpService.ts` is not in the snapshot).  The
session's group string selects the smart scope; `search_tools` is
dispatched to its handler.  Non-smart scopes and the other smart-scope
tool names are outside the modelled fragment (`none`). -/
def handleCallToolRequest
    (searchToolsByVector : String → Nat → Option (List String) → List String)
    (getServersInGroup : String → List String)
    (st : HubState) (sessionId : String) (toolName : String)
    (args : SmartToolArgs) : Option CallToolOutcome :=
  match smartScopeOfGroup (getGroup st sessionId) with
  | none => none
  | some scope =>
    if toolName = "search_tools" then
      some (handleCallSearchTools searchToolsByVector getServersInGroup scope args)
    else
      none

/-- First character class of an environment-variable name:
`[A-Z_]`. -/
def isEnvNameStart (c : Char) : Bool :=
  c.isUpper || c = '_'

/-- Continuation character class of an environment-variable name:
`[A-Z0-9_]`. -/
def isEnvNameChar (c : Char) : Bool :=
  c.isUpper || c.isDigit || c = '_'

/-- Helper bound for the termination of the expansion scanner. -/
theorem length_dropWhile_le {p : Char → Bool} : (l : List Char) → (l.dropWhile p).length ≤ l.length
  | [] => Nat.le_refl _
  | c :: cs => by
    rw [List.dropWhile_cons]
    split
    · exact Nat.le_succ_of_le (length_dropWhile_le cs)
    · exact Nat.le_refl _

/-- Modelled from the spec: the character-level scanner behind
`expandEnvVars` (`config/index.ts` is not in the snapshot; the
repository's tests and `docs/environment-variables.md` pin this
behaviour).  A `${NAME}` or `$NAME` reference, with `NAME` matching
`[A-Z_][A-Z0-9_]*`, is replaced by the environment value (empty when the
variable is unset); a `$` that does not open a valid reference is kept
verbatim. -/
def expandChars (env : String → Option String) : List Char → List Char
  | [] => []
  | c :: cs =>
    if c = '$' then
      match h1 : cs with
      | '{' :: cs2 =>
        match h2 : cs2.dropWhile isEnvNameChar with
        | '}' :: rest =>
          match h3 : cs2.takeWhile isEnvNameChar with
          | n1 :: ns =>
            if isEnvNameStart n1 then
              ((env (String.mk (n1 :: ns))).getD "").data ++ expandChars env rest
            else
              c :: expandChars env cs
          | [] => c :: expandChars env cs
        | _ => c :: expandChars env cs
      | c2 :: _ =>
        if isEnvNameStart c2 then
          ((env (String.mk (cs.takeWhile isEnvNameChar))).getD "").data ++
            expandChars env (cs.dropWhile isEnvNameChar)
        else
          c :: expandChars env cs
      | [] => [c]
    else
      c :: expandChars env cs
termination_by l => l.length
decreasing_by
  all_goals simp_wf
  all_goals try subst h1
  all_goals try simp
  · have hd := @length_dropWhile_le isEnvNameChar cs2
    rw [h2] at hd
    simp at hd
    omega
  · rename_i tl hstart
    have hd := @length_dropWhile_le isEnvNameChar (c2 :: tl)
    simp at hd ⊢
    omega

/-- Modelled from the spec: `expandEnvVars` (`config/index.ts` is not in
the snapshot) — expands every `${NAME}` / `$NAME` reference in a string
through the environment, an unset variable expanding to the empty
string. -/
def expandEnvVars (env : String → Option String) (value : String) : String :=
  String.mk (expandChars env value.data)

/-- A JSON-like configuration value: the data `replaceEnvVars` walks. -/
inductive ConfigValue where
  | str (s : String)
  | num (n : Int)
  | bool (b : Bool)
  | null
  | arr (items : List ConfigValue)
  | obj (fields : List (String × ConfigValue))

/-- Modelled from the spec: `replaceEnvVars` (`config/index.ts` is not in
the snapshot) — applies `expandEnvVars` to every string, recurses through
arrays and objects, and preserves non-string leaves (numbers, booleans,
null) unchanged. -/
def replaceEnvVars (env : String → Option String) : ConfigValue → ConfigValue
  | .str s => .str (expandEnvVars env s)
  | .num n => .num n
  | .bool b => .bool b
  | .null => .null
  | .arr items => .arr (items.attach.map (fun x => replaceEnvVars env x.1))
  | .obj fields => .obj (fields.attach.map (fun f => (f.1.1, replaceEnvVars env f.1.2)))
decreasing_by
  · have := List.sizeOf_lt_of_mem x.2
    simp_wf
    omega
  · obtain ⟨⟨a, b⟩, hmem⟩ := f
    have := List.sizeOf_lt_of_mem hmem
    simp_wf
    simp [Prod.mk.sizeOf_spec] at this
    omega

/-- A configuration value containing no `$` character in any of its
strings (hence no environment-variable reference anywhere). -/
def noDollar : ConfigValue → Bool
  | .str s => s.data.all (fun c => c ≠ '$')
  | .num _ => true
  | .bool _ => true
  | .null => true
  | .arr items => items.attach.all (fun x => noDollar x.1)
  | .obj fields => fields.attach.all (fun f => noDollar f.1.2)
decreasing_by
  · have := List.sizeOf_lt_of_mem x.2
    simp_wf
    omega
  · obtain ⟨⟨a, b⟩, hmem⟩ := f
    have := List.sizeOf_lt_of_mem hmem
    simp_wf
    simp [Prod.mk.sizeOf_spec] at this
    omega

/-- Syntactic validity of an environment-variable name:
`[A-Z_][A-Z0-9_]*`. -/
def isValidEnvName (name : String) : Bool :=
  match name.data with
  | [] => false
  | c :: cs => isEnvNameStart c && cs.all isEnvNameChar

/-- A concrete settings document with bearer authentication switched on
(key `"k"`), used to exercise the authentication gate. -/
def bearerSettings : McpSettings :=
  { mcpServers := [],
    systemConfig := some
      { routing := some
          { enableGlobalRoute := true, enableGroupNameRoute := true,
            enableBearerAuth := true, bearerAuthKey := "k", skipAuth := false } } }

/-- A concrete settings document with both `skipAuth` and
`enableBearerAuth` switched on, probing how the two flags interact. -/
def skipAuthSettings : McpSettings :=
  { mcpServers := [],
    systemConfig := some
      { routing := some
          { enableGlobalRoute := true, enableGroupNameRoute := true,
            enableBearerAuth := true, bearerAuthKey := "k", skipAuth := true } } }

/-- Settings rewritten with a given `skipAuth` flag (identity when no
routing block exists, since the defaulted block has `skipAuth` off
either way). -/
def withSkipAuth (settings : McpSettings) (b : Bool) : McpSettings :=
  match settings.systemConfig with
  | none => settings
  | some sc =>
    match sc.routing with
    | none => settings
    | some rc =>
      { settings with systemConfig := some { sc with routing := some { rc with skipAuth := b } } }

/-- A concrete settings document for the OAuth refresh-failure scenario:
server `vercel` has a stored refresh token, dynamic registration
enabled, and no access token. -/
def refreshFailSettings : McpSettings :=
  { mcpServers :=
      [("vercel",
        { oauth := some
            { refreshToken := some "refresh-1",
              dynamicRegistration := some { enabled := true } } })],
    systemConfig := none }

/-- A concrete coordinator state for the refresh-failure scenario: the
`vercel` upstream is currently `connected`. -/
def refreshFailState : OAuthRuntimeState :=
  { settings := refreshFailSettings, serverStatus := [("vercel", .connected)] }

/-- A registration helper that succeeds with a fixed client, for the
refresh-failure scenario. -/
def initOAuthOk : String → ServerConfig → Except String (Option OAuthClientInformation) :=
  fun _ _ => .ok (some { clientId := "client-1" })

/-- A refresh-token grant that fails (the authorization server answered
`server_error`, not `invalid_grant`). -/
def refreshGrantFails : String → ServerConfig → OAuthClientInformation → String → Except String String :=
  fun _ _ _ _ => .error "server_error"

/-- A fully populated OAuth block, used to check the `persistTokens`
frame conditions on every field. -/
def persistFixtureOAuth : OAuthConfig :=
  { clientId := some "cid", clientSecret := some "sec", scopes := some ["read"],
    accessToken := some "oldAT", refreshToken := some "oldRT",
    authorizationEndpoint := some "https://auth.example/authorize",
    tokenEndpoint := some "https://auth.example/token",
    pendingAuthorization := some
      { authorizationUrl := some "https://auth.example/a",
        state := some "st", codeVerifier := some "cv", createdAt := 1 } }

/-- A settings document holding one server `srv` with the fixture OAuth
block. -/
def persistFixtureSettings : McpSettings :=
  { mcpServers := [("srv", { oauth := some persistFixtureOAuth })], systemConfig := none }

/-- A token update carrying a fresh access token, a truthy replacement
refresh token, and the clear-pending flag. -/
def persistFixtureUpdate : TokenUpdate :=
  { accessToken := "newAT", refreshToken := some (some "newRT"),
    clearPendingAuthorization := true }

/-! ### General lemmas about the embedded operations -/

theorem objLookup_objSet_self {β : Type} (k : String) (v : β) :
    (l : List (String × β)) → objLookup k (objSet k v l) = some v
  | [] => by simp [objSet, objLookup]
  | p :: rest => by
    rw [objSet]
    split
    · simp [objLookup]
    · rename_i hne
      rw [objLookup, if_neg hne]
      exact objLookup_objSet_self k v rest

theorem objLookup_objSet_ne {β : Type} (k j : String) (v : β) (hne : j ≠ k) :
    (l : List (String × β)) → objLookup k (objSet j v l) = objLookup k l
  | [] => by simp [objSet, objLookup, hne]
  | p :: rest => by
    rw [objSet]
    split
    · rename_i hp
      rw [objLookup, objLookup, if_neg hne, if_neg (show ¬ p.1 = k by rw [hp]; exact hne)]
    · rw [objLookup, objLookup]
      split
      · rfl
      · exact objLookup_objSet_ne k j v hne rest

theorem objLookup_objDelete_self {β : Type} (k : String) :
    (l : List (String × β)) → objLookup k (objDelete k l) = none
  | [] => rfl
  | p :: rest => by
    rw [objDelete]
    split
    · exact objLookup_objDelete_self k rest
    · rename_i hne
      rw [objLookup, if_neg hne]
      exact objLookup_objDelete_self k rest

theorem objDelete_of_not_mem {β : Type} (k : String) :
    (l : List (String × β)) → k ∉ l.map Prod.fst → objDelete k l = l
  | [], _ => rfl
  | p :: rest, h => by
    simp only [List.map_cons, List.mem_cons, not_or] at h
    rw [objDelete, if_neg (fun he => h.1 he.symm), objDelete_of_not_mem k rest h.2]

theorem length_objDelete_of_found {β : Type} (k : String) :
    (l : List (String × β)) → (l.map Prod.fst).Nodup → (objLookup k l).isSome →
      (objDelete k l).length + 1 = l.length
  | [], _, hfound => by simp [objLookup] at hfound
  | p :: rest, hnd, hfound => by
    simp only [List.map_cons, List.nodup_cons] at hnd
    rw [objDelete]
    split
    · rename_i hp
      rw [objDelete_of_not_mem k rest (by rw [← hp]; exact hnd.1)]
      rfl
    · rename_i hne
      rw [objLookup, if_neg hne] at hfound
      rw [List.length_cons, List.length_cons,
        length_objDelete_of_found k rest hnd.2 hfound]

theorem takeWhile_append_of_all {p : Char → Bool} {l : List Char} (r : List Char)
    (h : l.all p = true) : (l ++ r).takeWhile p = l ++ r.takeWhile p := by
  induction l with
  | nil => simp
  | cons a as ih =>
    simp only [List.all_cons, Bool.and_eq_true] at h
    simp [List.takeWhile_cons, h.1, ih h.2]

theorem dropWhile_append_of_all {p : Char → Bool} {l : List Char} (r : List Char)
    (h : l.all p = true) : (l ++ r).dropWhile p = r.dropWhile p := by
  induction l with
  | nil => simp
  | cons a as ih =>
    simp only [List.all_cons, Bool.and_eq_true] at h
    simp [List.dropWhile_cons, h.1, ih h.2]

theorem takeWhile_of_all {p : Char → Bool} {l : List Char} (h : l.all p = true) :
    l.takeWhile p = l := by
  induction l with
  | nil => simp
  | cons a as ih =>
    simp only [List.all_cons, Bool.and_eq_true] at h
    simp [List.takeWhile_cons, h.1, ih h.2]

theorem dropWhile_of_all {p : Char → Bool} {l : List Char} (h : l.all p = true) :
    l.dropWhile p = [] := by
  induction l with
  | nil => simp
  | cons a as ih =>
    simp only [List.all_cons, Bool.and_eq_true] at h
    simp [List.dropWhile_cons, h.1, ih h.2]

theorem expandChars_ref_braced (env : String → Option String) (n1 : Char) (ns rest : List Char)
    (hstart : isEnvNameStart n1 = true)
    (hname : (n1 :: ns).all isEnvNameChar = true) :
    expandChars env ('$' :: '{' :: ((n1 :: ns) ++ '}' :: rest))
      = ((env (String.mk (n1 :: ns))).getD "").data ++ expandChars env rest := by
  have hbr : isEnvNameChar '}' = false := by decide
  have htake : (((n1 :: ns) ++ '}' :: rest).takeWhile isEnvNameChar) = n1 :: ns := by
    rw [takeWhile_append_of_all _ hname]
    simp [List.takeWhile_cons, hbr]
  have hdrop : (((n1 :: ns) ++ '}' :: rest).dropWhile isEnvNameChar) = '}' :: rest := by
    rw [dropWhile_append_of_all _ hname]
    simp [List.dropWhile_cons, hbr]
  rw [expandChars]
  simp only [reduceIte]
  split
  · rename_i rest2 heq
    rw [hdrop] at heq
    cases heq
    split
    · rename_i m1 ms heq2
      rw [htake] at heq2
      cases heq2
      rw [if_pos hstart]
    · rename_i heq2
      rw [htake] at heq2
      cases heq2
  · rename_i hne
    rw [hdrop] at hne
    exact (hne rest rfl).elim

theorem expandChars_ref_plain (env : String → Option String) (n1 : Char) (ns : List Char)
    (hstart : isEnvNameStart n1 = true)
    (hname : (n1 :: ns).all isEnvNameChar = true) :
    expandChars env ('$' :: (n1 :: ns)) = ((env (String.mk (n1 :: ns))).getD "").data := by
  rw [expandChars]
  any_goals (intro hbrace; subst hbrace; exact absurd hstart (by decide))
  rw [if_pos hstart, takeWhile_of_all hname, dropWhile_of_all hname, expandChars]
  simp

theorem expandChars_no_dollar (env : String → Option String) {l : List Char}
    (h : l.all (fun c => c ≠ '$') = true) : expandChars env l = l := by
  induction l with
  | nil => rw [expandChars]
  | cons c cs ih =>
    simp only [List.all_cons, Bool.and_eq_true] at h
    rw [expandChars.eq_def]
    dsimp only
    rw [if_neg (of_decide_eq_true h.1), ih h.2]

theorem envNameStart_isChar {c : Char} (h : isEnvNameStart c = true) :
    isEnvNameChar c = true := by
  simp only [isEnvNameStart, Bool.or_eq_true] at h
  rcases h with h | h
  · simp [isEnvNameChar, h]
  · simp [isEnvNameChar, h]

theorem isValidEnvName_parts {name : String} (h : isValidEnvName name = true) :
    ∃ n1 ns, name.data = n1 :: ns ∧ isEnvNameStart n1 = true ∧
      (n1 :: ns).all isEnvNameChar = true := by
  unfold isValidEnvName at h
  cases hnd : name.data with
  | nil => rw [hnd] at h; cases h
  | cons n1 ns =>
    rw [hnd] at h
    simp only [Bool.and_eq_true] at h
    exact ⟨n1, ns, rfl, h.1, by simp [List.all_cons, h.2, envNameStart_isChar h.1]⟩

theorem expandEnvVars_braced (env : String → Option String) (name : String)
    (h : isValidEnvName name = true) :
    expandEnvVars env ("$\x7b" ++ name ++ "\x7d") = (env name).getD "" := by
  obtain ⟨n1, ns, hnd, hstart, hall⟩ := isValidEnvName_parts h
  unfold expandEnvVars
  have hdata : ("$\x7b" ++ name ++ "\x7d").data = '$' :: '{' :: ((n1 :: ns) ++ '}' :: []) := by
    show "$\x7b".data ++ name.data ++ "\x7d".data = _
    rw [hnd]
    simp
  rw [hdata, expandChars_ref_braced env n1 ns [] hstart hall]
  rw [expandChars, List.append_nil]
  have hmk : String.mk (n1 :: ns) = name := by rw [← hnd]
  rw [hmk]

theorem expandEnvVars_plain (env : String → Option String) (name : String)
    (h : isValidEnvName name = true) :
    expandEnvVars env ("$" ++ name) = (env name).getD "" := by
  obtain ⟨n1, ns, hnd, hstart, hall⟩ := isValidEnvName_parts h
  unfold expandEnvVars
  have hdata : ("$" ++ name).data = '$' :: (n1 :: ns) := by
    show "$".data ++ name.data = _
    rw [hnd]
    rfl
  rw [hdata, expandChars_ref_plain env n1 ns hstart hall]
  have hmk : String.mk (n1 :: ns) = name := by rw [← hnd]
  rw [hmk]

theorem expandEnvVars_no_dollar (env : String → Option String) (s : String)
    (h : s.data.all (fun c => c ≠ '$') = true) :
    expandEnvVars env s = s := by
  unfold expandEnvVars
  rw [expandChars_no_dollar env h]

theorem replaceEnvVars_arr (env : String → Option String) (items : List ConfigValue) :
    replaceEnvVars env (.arr items) = .arr (items.map (replaceEnvVars env)) := by
  rw [replaceEnvVars]
  exact congrArg ConfigValue.arr (List.attach_map_val items (replaceEnvVars env))

theorem replaceEnvVars_obj (env : String → Option String)
    (fields : List (String × ConfigValue)) :
    replaceEnvVars env (.obj fields)
      = .obj (fields.map (fun f => (f.1, replaceEnvVars env f.2))) := by
  rw [replaceEnvVars]
  exact congrArg ConfigValue.obj
    (List.attach_map_val fields (fun f => (f.1, replaceEnvVars env f.2)))

theorem noDollar_replace (env : String → Option String) (v : ConfigValue)
    (h : noDollar v = true) : replaceEnvVars env v = v := by
  induction v using noDollar.induct with
  | case1 s =>
    rw [noDollar] at h
    rw [replaceEnvVars, expandEnvVars_no_dollar env s h]
  | case2 n => rw [replaceEnvVars]
  | case3 b => rw [replaceEnvVars]
  | case4 => rw [replaceEnvVars]
  | case5 items ih =>
    rw [noDollar] at h
    rw [replaceEnvVars]
    simp only [List.all_eq_true, List.mem_attach, true_implies] at h
    congr 1
    calc items.attach.map (fun x => replaceEnvVars env x.1)
        = items.attach.map (fun x => x.1) := by
          apply List.map_congr_left
          intro x _
          exact ih x (h x)
      _ = items := by
          rw [List.attach_map_val items (fun x => x)]
          exact List.map_id items
  | case6 fields ih =>
    rw [noDollar] at h
    rw [replaceEnvVars]
    simp only [List.all_eq_true, List.mem_attach, true_implies] at h
    congr 1
    calc fields.attach.map (fun f => (f.1.1, replaceEnvVars env f.1.2))
        = fields.attach.map (fun f => f.1) := by
          apply List.map_congr_left
          intro f _
          rw [ih f (h f)]
      _ = fields := by
          rw [List.attach_map_val fields (fun f => f)]
          exact List.map_id fields

/-- Field-by-field behaviour of the `persistTokens` mutator: the access
token is always overwritten, the refresh token follows the
present/truthy/falsy rule, the pending authorization is removed exactly
when requested and present, and every other OAuth field is untouched. -/
theorem persistTokensMutator_spec (tokens : TokenUpdate) (O : OAuthConfig) :
    (persistTokensMutator tokens O).accessToken = some tokens.accessToken ∧
    (tokens.refreshToken = none →
      (persistTokensMutator tokens O).refreshToken = O.refreshToken) ∧
    (∀ v, tokens.refreshToken = some v → strTruthy v = true →
      (persistTokensMutator tokens O).refreshToken = v) ∧
    (∀ v, tokens.refreshToken = some v → strTruthy v = false →
      (persistTokensMutator tokens O).refreshToken = none) ∧
    (tokens.clearPendingAuthorization = true → O.pendingAuthorization.isSome = true →
      (persistTokensMutator tokens O).pendingAuthorization = none) ∧
    (tokens.clearPendingAuthorization = false ∨ O.pendingAuthorization = none →
      (persistTokensMutator tokens O).pendingAuthorization = O.pendingAuthorization) ∧
    (persistTokensMutator tokens O).clientId = O.clientId ∧
    (persistTokensMutator tokens O).clientSecret = O.clientSecret ∧
    (persistTokensMutator tokens O).scopes = O.scopes ∧
    (persistTokensMutator tokens O).authorizationEndpoint = O.authorizationEndpoint ∧
    (persistTokensMutator tokens O).tokenEndpoint = O.tokenEndpoint := by
  rcases tokens with ⟨acc, rt, cl⟩
  rcases rt with _ | v
  · rcases cl <;> rcases hop : O.pendingAuthorization with _ | p <;>
      simp [persistTokensMutator, hop]
  · rcases cl <;> rcases hop : O.pendingAuthorization with _ | p <;>
      by_cases htv : strTruthy v = true <;>
        simp [persistTokensMutator, hop, htv]

/-- Computation of `handleMcpPostRequest` on an initialize request with
no session id, when the bearer gate and the global-route gate pass: a
fresh id is drawn from the supply, registered with the request's group,
and the supply advances. -/
theorem handleMcpPost_fresh (uuidGen : Nat → String) (settings : McpSettings)
    (authorization : Option String) (g : Option String) (st : HubState)
    (hauth : validateBearerAuth settings authorization = true)
    (hglobal : (routingOrDefault settings.systemConfig).enableGlobalRoute = true) :
    handleMcpPostRequest uuidGen settings authorization none g true st
      = (.sessionOpened (uuidGen st.uuidCounter),
          { st with
              transports := objSet (uuidGen st.uuidCounter) ⟨g⟩ st.transports,
              sessionServers :=
                if uuidGen st.uuidCounter ∈ st.sessionServers then st.sessionServers
                else uuidGen st.uuidCounter :: st.sessionServers,
              uuidCounter := st.uuidCounter + 1 }) := by
  simp only [handleMcpPostRequest, hauth]
  rw [if_neg (by simp), if_neg (by simp [hglobal])]
  simp

/-! ### Claim theorems -/

/-- C1: on every downstream session endpoint (SSE open, SSE message,
streamable-HTTP POST, streamable-HTTP GET/DELETE), when
`routing.enableBearerAuth` is true a request whose `Authorization`
header is absent, does not start with `"Bearer "`, or carries a token
(the part after the prefix) different from `routing.bearerAuthKey` is
answered with HTTP 401 and no session is opened (the state is
unchanged); a request whose token equals `bearerAuthKey` exactly passes
the bearer check and proceeds past the 401 gate. -/
theorem C1_bearer_auth_gate
    (settings : McpSettings) (uuidGen : Nat → String) (st : HubState)
    (group sessionId : Option String) (isInit : Bool) (authorization : Option String)
    (henabled : (routingOrDefault settings.systemConfig).enableBearerAuth = true) :
    ((authorization = none
        ∨ (∃ h, authorization = some h ∧ strStartsWith h "Bearer " = false)
        ∨ (∃ h, authorization = some h ∧ strStartsWith h "Bearer " = true ∧
            h.drop 7 ≠ (routingOrDefault settings.systemConfig).bearerAuthKey)) →
      validateBearerAuth settings authorization = false ∧
      handleSseConnection uuidGen settings authorization group st = (.unauthorized, st) ∧
      handleSseMessage settings authorization sessionId st = .unauthorized ∧
      handleMcpPostRequest uuidGen settings authorization sessionId group isInit st
        = (.unauthorized, st) ∧
      handleMcpOtherRequest settings authorization sessionId st = .unauthorized) ∧
    (∀ h, authorization = some h → strStartsWith h "Bearer " = true →
      h.drop 7 = (routingOrDefault settings.systemConfig).bearerAuthKey →
      validateBearerAuth settings authorization = true ∧
      (handleSseConnection uuidGen settings authorization group st).1 ≠ .unauthorized ∧
      handleSseMessage settings authorization sessionId st ≠ .unauthorized ∧
      (handleMcpPostRequest uuidGen settings authorization sessionId group isInit st).1
        ≠ .unauthorized ∧
      handleMcpOtherRequest settings authorization sessionId st ≠ .unauthorized) := by
  constructor
  · intro hbad
    have hval : validateBearerAuth settings authorization = false := by
      simp only [validateBearerAuth, henabled, if_true]
      rcases hbad with hnone | ⟨hh, hsome, hsw⟩ | ⟨hh, hsome, hsw, hne⟩
      · rw [hnone]
      · rw [hsome]
        simp [hsw]
      · rw [hsome]
        simp [hsw, hne]
    refine ⟨hval, ?_, ?_, ?_, ?_⟩
    · simp [handleSseConnection, hval]
    · simp [handleSseMessage, hval]
    · simp [handleMcpPostRequest, hval]
    · simp [handleMcpOtherRequest, hval]
  · intro h hsome hsw hkey
    have hval : validateBearerAuth settings authorization = true := by
      simp only [validateBearerAuth, henabled, if_true]
      rw [hsome]
      simp [hsw, hkey]
    refine ⟨hval, ?_, ?_, ?_, ?_⟩
    · simp only [handleSseConnection, hval]
      rw [if_neg (by simp)]
      split <;> simp
    · simp only [handleSseMessage, hval]
      rw [if_neg (by simp)]
      rcases sessionId with _ | sid
      · simp
      · dsimp only
        split
        · simp
        · split <;> simp
    · simp only [handleMcpPostRequest, hval]
      rw [if_neg (by simp)]
      split
      · simp
      · split
        · simp
        · split <;> simp
    · simp only [handleMcpOtherRequest, hval]
      rw [if_neg (by simp)]
      rcases sessionId with _ | sid
      · simp
      · dsimp only
        split
        · simp
        · split <;> simp

/-- C1 witness: with bearer auth enabled and key `"k"`, a request
without a header is rejected and a request with `Authorization:
Bearer k` passes the gate. -/
theorem C1_bearer_auth_gate_witness :
    (validateBearerAuth bearerSettings none = false ∧
      handleSseConnection Nat.repr bearerSettings none none {} = (.unauthorized, {})) ∧
    validateBearerAuth bearerSettings (some "Bearer k") = true := by
  have hgate := C1_bearer_auth_gate bearerSettings Nat.repr {} none none true none (by decide)
  have hpass := C1_bearer_auth_gate bearerSettings Nat.repr {} none none true
    (some "Bearer k") (by decide)
  have h1 := hgate.1 (Or.inl rfl)
  have h2 := (hpass.2 "Bearer k" rfl (by decide) (by decide)).1
  exact ⟨⟨h1.1, h1.2.1⟩, h2⟩

/-- C2 counterexample: with `skipAuth := true` and `enableBearerAuth :=
true`, a session-open request without any `Authorization` header does
not pass the auth gate — it is rejected with HTTP 401 — refuting the
claim that `skipAuth` makes every request pass regardless of
`enableBearerAuth`. -/
theorem C2_skipAuth_counterexample :
    (routingOrDefault skipAuthSettings.systemConfig).skipAuth = true ∧
    validateBearerAuth skipAuthSettings none = false ∧
    handleSseConnection Nat.repr skipAuthSettings none none {} = (.unauthorized, {}) := by
  refine ⟨by decide, by decide, ?_⟩
  simp [handleSseConnection, validateBearerAuth, routingOrDefault, skipAuthSettings]

/-- C2 amended: `skipAuth` is never consulted by the session-manager
auth gate — flipping it changes no authentication outcome; every
request (with or without credentials) passes the gate exactly when
`enableBearerAuth` is false. -/
theorem C2_skipAuth_amended (settings : McpSettings) (authorization : Option String)
    (b : Bool) :
    validateBearerAuth (withSkipAuth settings b) authorization
      = validateBearerAuth settings authorization ∧
    ((routingOrDefault settings.systemConfig).enableBearerAuth = false →
      validateBearerAuth settings authorization = true) ∧
    ((routingOrDefault settings.systemConfig).enableBearerAuth = true →
      validateBearerAuth settings none = false) := by
  refine ⟨?_, ?_, ?_⟩
  · rcases settings with ⟨servers, sysc⟩
    rcases sysc with _ | ⟨rt⟩
    · rfl
    · rcases rt with _ | rc
      · rfl
      · simp [withSkipAuth, validateBearerAuth, routingOrDefault]
  · intro hoff
    simp [validateBearerAuth, hoff]
  · intro hon
    simp [validateBearerAuth, hon]

/-- C2 amended witness: flipping `skipAuth` on the bearer-enabled
configuration changes nothing, and with bearer auth disabled (the empty
configuration) a bare request passes. -/
theorem C2_skipAuth_amended_witness :
    validateBearerAuth (withSkipAuth bearerSettings true) none
      = validateBearerAuth bearerSettings none ∧
    ((routingOrDefault (McpSettings.mk [] none).systemConfig).enableBearerAuth = false ∧
      validateBearerAuth (McpSettings.mk [] none) none = true) := by
  refine ⟨(C2_skipAuth_amended bearerSettings none true).1, ⟨by decide, ?_⟩⟩
  exact (C2_skipAuth_amended (McpSettings.mk [] none) none false).2.1 (by decide)

/-- C3: an initialize request arriving on the streamable-HTTP endpoint
without a session id mints its session id from a fresh draw of the
`randomUUID` supply; two such requests draw distinct supply positions,
so — the supply never repeating, which is the UUIDv4 guarantee the code
relies on — the two minted ids differ and both end up registered in the
session map bound to the group taken from each request URL. -/
theorem C3_session_mint
    (uuidGen : Nat → String) (settings : McpSettings) (authorization : Option String)
    (g1 g2 : Option String) (st0 : HubState)
    (hauth : validateBearerAuth settings authorization = true)
    (hglobal : (routingOrDefault settings.systemConfig).enableGlobalRoute = true)
    (hfresh : uuidGen st0.uuidCounter ≠ uuidGen (st0.uuidCounter + 1)) :
    ∃ st1 st2,
      handleMcpPostRequest uuidGen settings authorization none g1 true st0
        = (.sessionOpened (uuidGen st0.uuidCounter), st1) ∧
      handleMcpPostRequest uuidGen settings authorization none g2 true st1
        = (.sessionOpened (uuidGen (st0.uuidCounter + 1)), st2) ∧
      uuidGen st0.uuidCounter ≠ uuidGen (st0.uuidCounter + 1) ∧
      objLookup (uuidGen st0.uuidCounter) st2.transports = some ⟨g1⟩ ∧
      objLookup (uuidGen (st0.uuidCounter + 1)) st2.transports = some ⟨g2⟩ ∧
      st1.uuidCounter = st0.uuidCounter + 1 ∧
      st2.uuidCounter = st0.uuidCounter + 2 := by
  have h1 := handleMcpPost_fresh uuidGen settings authorization g1 st0 hauth hglobal
  have h2 := handleMcpPost_fresh uuidGen settings authorization g2
    { st0 with
        transports := objSet (uuidGen st0.uuidCounter) ⟨g1⟩ st0.transports,
        sessionServers :=
          if uuidGen st0.uuidCounter ∈ st0.sessionServers then st0.sessionServers
          else uuidGen st0.uuidCounter :: st0.sessionServers,
        uuidCounter := st0.uuidCounter + 1 } hauth hglobal
  refine ⟨_, _, h1, h2, hfresh, ?_, ?_, rfl, rfl⟩
  · rw [objLookup_objSet_ne _ _ _ (Ne.symm hfresh), objLookup_objSet_self]
  · rw [objLookup_objSet_self]

/-- C3 witness: with the empty configuration and a concrete non-repeating
supply, two initialize requests mint the two distinct ids and both are
registered with their groups. -/
theorem C3_session_mint_witness :
    validateBearerAuth (McpSettings.mk [] none) none = true ∧
    (∃ st1 st2,
      handleMcpPostRequest (fun n => if n = 0 then "id-0" else "id-1")
          (McpSettings.mk [] none) none none (some "alpha") true (HubState.mk [] [] 0)
        = (.sessionOpened ((fun n => if n = 0 then "id-0" else "id-1")
            (HubState.mk [] [] 0).uuidCounter), st1) ∧
      handleMcpPostRequest (fun n => if n = 0 then "id-0" else "id-1")
          (McpSettings.mk [] none) none none none true st1
        = (.sessionOpened ((fun n => if n = 0 then "id-0" else "id-1")
            ((HubState.mk [] [] 0).uuidCounter + 1)), st2) ∧
      (fun n => if n = 0 then "id-0" else "id-1") (HubState.mk [] [] 0).uuidCounter
        ≠ (fun n => if n = 0 then "id-0" else "id-1") ((HubState.mk [] [] 0).uuidCounter + 1) ∧
      objLookup ((fun n => if n = 0 then "id-0" else "id-1")
          (HubState.mk [] [] 0).uuidCounter) st2.transports = some ⟨some "alpha"⟩ ∧
      objLookup ((fun n => if n = 0 then "id-0" else "id-1")
          ((HubState.mk [] [] 0).uuidCounter + 1)) st2.transports = some ⟨none⟩ ∧
      st1.uuidCounter = (HubState.mk [] [] 0).uuidCounter + 1 ∧
      st2.uuidCounter = (HubState.mk [] [] 0).uuidCounter + 2) :=
  ⟨by decide,
    C3_session_mint (fun n => if n = 0 then "id-0" else "id-1") (McpSettings.mk [] none)
      none (some "alpha") none (HubState.mk [] [] 0) (by decide) (by decide) (by decide)⟩

/-- C9: closing a downstream session (SSE response close, streamable
transport close, explicit DELETE) removes its entry from the session
map and deletes the per-session MCP server instance: afterwards the
lookup finds nothing, `getGroup` returns the empty string, a POST
`/messages` for that id is rejected with 404, the connection count has
decreased by exactly one, and the id holds no server instance; the
streamable `onclose` path performs the same tear-down. -/
theorem C9_session_close
    (settings : McpSettings) (authorization : Option String) (st : HubState)
    (sid : String) (entry : SessionEntry)
    (hkeys : (st.transports.map Prod.fst).Nodup)
    (hfound : objLookup sid st.transports = some entry)
    (hsid : sid ≠ "")
    (hauth : validateBearerAuth settings authorization = true) :
    objLookup sid (closeSession sid st).transports = none ∧
    getGroup (closeSession sid st) sid = "" ∧
    getConnectionCount (closeSession sid st) + 1 = getConnectionCount st ∧
    handleSseMessage settings authorization (some sid) (closeSession sid st) = .notFound ∧
    sid ∉ (closeSession sid st).sessionServers ∧
    closeStreamableTransport (some sid) st = closeSession sid st := by
  have hl : objLookup sid (objDelete sid st.transports) = none :=
    objLookup_objDelete_self sid st.transports
  refine ⟨hl, ?_, ?_, ?_, ?_, ?_⟩
  · simp [getGroup, closeSession, hl]
  · exact length_objDelete_of_found sid st.transports hkeys (by rw [hfound]; rfl)
  · simp only [handleSseMessage, hauth]
    rw [if_neg (by simp)]
    rw [if_neg hsid]
    simp [closeSession, hl]
  · simp [closeSession, List.mem_filter]
  · simp [closeStreamableTransport, hsid]

/-- C9 witness: closing the session `"s1"` of a one-session hub empties
the map, the group lookup, and the server set, and drops the count from
one to zero. -/
theorem C9_session_close_witness :
    objLookup "s1" (closeSession "s1" (HubState.mk [("s1", ⟨some "g"⟩)] ["s1"] 5)).transports
      = none ∧
    getGroup (closeSession "s1" (HubState.mk [("s1", ⟨some "g"⟩)] ["s1"] 5)) "s1" = "" ∧
    getConnectionCount (closeSession "s1" (HubState.mk [("s1", ⟨some "g"⟩)] ["s1"] 5)) + 1
      = getConnectionCount (HubState.mk [("s1", ⟨some "g"⟩)] ["s1"] 5) ∧
    handleSseMessage (McpSettings.mk [] none) none (some "s1")
        (closeSession "s1" (HubState.mk [("s1", ⟨some "g"⟩)] ["s1"] 5)) = .notFound ∧
    "s1" ∉ (closeSession "s1" (HubState.mk [("s1", ⟨some "g"⟩)] ["s1"] 5)).sessionServers ∧
    closeStreamableTransport (some "s1") (HubState.mk [("s1", ⟨some "g"⟩)] ["s1"] 5)
      = closeSession "s1" (HubState.mk [("s1", ⟨some "g"⟩)] ["s1"] 5) :=
  C9_session_close (McpSettings.mk [] none) none (HubState.mk [("s1", ⟨some "g"⟩)] ["s1"] 5)
    "s1" ⟨some "g"⟩ (by decide) (by decide) (by decide) (by decide)

/-- C7: the OAuth callback resolves its target server by matching the
stored pending-authorization state first; only when no server matches
the stored state is the state parameter decoded (URL-safe base64 JSON
`server` field, with the before-the-first-colon fallback) and the
server looked up by name.  In particular, when both a stored match and
a decodable state are available, the stored match wins. -/
theorem C7_callback_resolution
    (getServerByOAuthState getServerByName : String → Option ServerInfo)
    (decodeStatePayload : String → Option String) (stateParam : String) :
    (∀ s, getServerByOAuthState stateParam = some s →
      resolveOAuthCallbackServer getServerByOAuthState getServerByName
        decodeStatePayload stateParam = some s) ∧
    (getServerByOAuthState stateParam = none →
      resolveOAuthCallbackServer getServerByOAuthState getServerByName
          decodeStatePayload stateParam
        = (extractServerNameFromState decodeStatePayload stateParam).bind getServerByName) ∧
    (∀ nm, decodeStatePayload stateParam = some nm →
      extractServerNameFromState decodeStatePayload stateParam = some nm) ∧
    (decodeStatePayload stateParam = none →
      extractServerNameFromState decodeStatePayload stateParam
        = colonPrefixName stateParam) := by
  refine ⟨?_, ?_, ?_, ?_⟩
  · intro s hs
    simp [resolveOAuthCallbackServer, hs]
  · intro hn
    simp only [resolveOAuthCallbackServer, hn]
    cases extractServerNameFromState decodeStatePayload stateParam <;> simp
  · intro nm h
    simp [extractServerNameFromState, h]
  · intro h
    simp [extractServerNameFromState, h]

/-- C7 witness: with a stored state matching server `vercel` and a state
that also decodes to another registered name, the stored match wins;
without a stored match, the decoded name is used. -/
theorem C7_callback_resolution_witness :
    ((fun s => if s = "state-1" then some (ServerInfo.mk "vercel") else none) "state-1"
        = some (ServerInfo.mk "vercel") ∧
      resolveOAuthCallbackServer
          (fun s => if s = "state-1" then some (ServerInfo.mk "vercel") else none)
          (fun n => if n = "decoded" then some (ServerInfo.mk "decoded") else none)
          (fun _ => some "decoded") "state-1"
        = some (ServerInfo.mk "vercel")) ∧
    resolveOAuthCallbackServer (fun _ => none)
        (fun n => if n = "decoded" then some (ServerInfo.mk "decoded") else none)
        (fun _ => some "decoded") "state-1"
      = some (ServerInfo.mk "decoded") := by
  constructor
  · refine ⟨by decide, ?_⟩
    exact (C7_callback_resolution
      (fun s => if s = "state-1" then some (ServerInfo.mk "vercel") else none)
      (fun n => if n = "decoded" then some (ServerInfo.mk "decoded") else none)
      (fun _ => some "decoded") "state-1").1 (ServerInfo.mk "vercel") (by decide)
  · have h2 := (C7_callback_resolution (fun _ => none)
      (fun n => if n = "decoded" then some (ServerInfo.mk "decoded") else none)
      (fun _ => some "decoded") "state-1").2.1 rfl
    rw [h2]
    decide

/-- C8 (code evaluation at the failing input): when the refresh-token
grant fails for server `vercel`, the embedded `getServerOAuthToken`
silently returns `undefined` and the coordinator state is completely
unchanged — the server stays `connected` instead of transitioning to
`oauth_required`, no access token is cleared (none was stored), and the
stored refresh token survives even though the failure was not
`invalid_grant`.  The code therefore does not implement the prescribed
transition. -/
theorem C8_refresh_failure_behavior :
    acquireTokenForServer initOAuthOk refreshGrantFails refreshFailState "vercel"
      = (none, refreshFailState) ∧
    objLookup "vercel"
        (acquireTokenForServer initOAuthOk refreshGrantFails refreshFailState
          "vercel").2.serverStatus = some .connected ∧
    some ServerStatus.connected ≠ some ServerStatus.oauthRequired ∧
    ((objLookup "vercel"
        (acquireTokenForServer initOAuthOk refreshGrantFails refreshFailState
          "vercel").2.settings.mcpServers).bind (fun sc => sc.oauth)).bind
      (fun o => o.refreshToken) = some "refresh-1" := by
  refine ⟨by decide, by decide, by decide, by decide⟩

/-- C10: `persistTokens` always sets `oauth.accessToken` to the new
token; it changes `oauth.refreshToken` only when the field is provided
(storing a truthy value, deleting it on `null`/empty); it removes
`pendingAuthorization` exactly when `clearPendingAuthorization` is set
and one exists; it leaves `clientId`, `clientSecret`, `scopes`,
`authorizationEndpoint`, and `tokenEndpoint` unchanged; and for a
server name absent from `mcpServers` it returns `undefined` and
persists nothing. -/
theorem C10_persistTokens_frame (settings : McpSettings) (serverName : String)
    (tokens : TokenUpdate) :
    (objLookup serverName settings.mcpServers = none →
      persistTokens settings serverName tokens = none) ∧
    (∀ sc, objLookup serverName settings.mcpServers = some sc →
      ∃ settings2 oauth2,
        persistTokens settings serverName tokens
          = some (settings2, { sc with oauth := some oauth2 }) ∧
        settings2 = { settings with
          mcpServers := objSet serverName { sc with oauth := some oauth2 }
            settings.mcpServers } ∧
        oauth2.accessToken = some tokens.accessToken ∧
        (tokens.refreshToken = none →
          oauth2.refreshToken = (sc.oauth.getD {}).refreshToken) ∧
        (∀ v, tokens.refreshToken = some v → strTruthy v = true →
          oauth2.refreshToken = v) ∧
        (∀ v, tokens.refreshToken = some v → strTruthy v = false →
          oauth2.refreshToken = none) ∧
        (tokens.clearPendingAuthorization = true →
          ((sc.oauth.getD {}).pendingAuthorization).isSome = true →
          oauth2.pendingAuthorization = none) ∧
        (tokens.clearPendingAuthorization = false ∨
            (sc.oauth.getD {}).pendingAuthorization = none →
          oauth2.pendingAuthorization = (sc.oauth.getD {}).pendingAuthorization) ∧
        oauth2.clientId = (sc.oauth.getD {}).clientId ∧
        oauth2.clientSecret = (sc.oauth.getD {}).clientSecret ∧
        oauth2.scopes = (sc.oauth.getD {}).scopes ∧
        oauth2.authorizationEndpoint = (sc.oauth.getD {}).authorizationEndpoint ∧
        oauth2.tokenEndpoint = (sc.oauth.getD {}).tokenEndpoint) := by
  constructor
  · intro h
    simp [persistTokens, mutateOAuthSettings, h]
  · intro sc hsc
    obtain ⟨ha, hr1, hr2, hr3, hp1, hp2, hf1, hf2, hf3, hf4, hf5⟩ :=
      persistTokensMutator_spec tokens (sc.oauth.getD {})
    refine ⟨_, persistTokensMutator tokens (sc.oauth.getD {}), ?_, rfl,
      ha, hr1, hr2, hr3, hp1, hp2, hf1, hf2, hf3, hf4, hf5⟩
    simp [persistTokens, mutateOAuthSettings, hsc]

/-- C10 witness: on the fully populated fixture server, persisting a new
access token with a truthy refresh token and the clear-pending flag
rewrites exactly the three token fields and keeps the client
credentials and endpoints. -/
theorem C10_persistTokens_frame_witness :
    ∃ settings2 oauth2,
      persistTokens persistFixtureSettings "srv" persistFixtureUpdate
        = some (settings2,
            { ServerConfig.mk (some persistFixtureOAuth) with oauth := some oauth2 }) ∧
      settings2 = { persistFixtureSettings with
        mcpServers := objSet "srv"
          { ServerConfig.mk (some persistFixtureOAuth) with oauth := some oauth2 }
          persistFixtureSettings.mcpServers } ∧
      oauth2.accessToken = some persistFixtureUpdate.accessToken ∧
      (persistFixtureUpdate.refreshToken = none →
        oauth2.refreshToken
          = ((ServerConfig.mk (some persistFixtureOAuth)).oauth.getD {}).refreshToken) ∧
      (∀ v, persistFixtureUpdate.refreshToken = some v → strTruthy v = true →
        oauth2.refreshToken = v) ∧
      (∀ v, persistFixtureUpdate.refreshToken = some v → strTruthy v = false →
        oauth2.refreshToken = none) ∧
      (persistFixtureUpdate.clearPendingAuthorization = true →
        (((ServerConfig.mk (some persistFixtureOAuth)).oauth.getD
          {}).pendingAuthorization).isSome = true →
        oauth2.pendingAuthorization = none) ∧
      (persistFixtureUpdate.clearPendingAuthorization = false ∨
          ((ServerConfig.mk (some persistFixtureOAuth)).oauth.getD
            {}).pendingAuthorization = none →
        oauth2.pendingAuthorization
          = ((ServerConfig.mk (some persistFixtureOAuth)).oauth.getD
              {}).pendingAuthorization) ∧
      oauth2.clientId
        = ((ServerConfig.mk (some persistFixtureOAuth)).oauth.getD {}).clientId ∧
      oauth2.clientSecret
        = ((ServerConfig.mk (some persistFixtureOAuth)).oauth.getD {}).clientSecret ∧
      oauth2.scopes
        = ((ServerConfig.mk (some persistFixtureOAuth)).oauth.getD {}).scopes ∧
      oauth2.authorizationEndpoint
        = ((ServerConfig.mk (some persistFixtureOAuth)).oauth.getD
            {}).authorizationEndpoint ∧
      oauth2.tokenEndpoint
        = ((ServerConfig.mk (some persistFixtureOAuth)).oauth.getD {}).tokenEndpoint :=
  (C10_persistTokens_frame persistFixtureSettings "srv" persistFixtureUpdate).2
    (ServerConfig.mk (some persistFixtureOAuth)) (by decide)

/-- C4: in every smart scope (`$smart` or `$smart/<group>`), `tools/list`
returns exactly two tools, `search_tools` first and `call_tool` second;
the `search_tools` description mentions "all available servers" in the
global smart scope and the quoted group name in a group smart scope —
for any group id, member list empty or not. -/
theorem C4_smart_tools_list (st : HubState) (sessionId : String) (scope : Option String)
    (hscope : smartScopeOfGroup (getGroup st sessionId) = some scope) :
    ∃ t1 t2, handleListToolsRequest st sessionId = some [t1, t2] ∧
      t1.name = "search_tools" ∧ t2.name = "call_tool" ∧
      (scope = none →
        ∃ pre post, t1.description = pre ++ "all available servers" ++ post) ∧
      (∀ g, scope = some g →
        ∃ pre post, t1.description
          = pre ++ ("servers in the \"" ++ g ++ "\" group") ++ post) := by
  refine ⟨⟨"search_tools", searchToolsDescription scope⟩,
    ⟨"call_tool", callToolDescription scope⟩, ?_, rfl, rfl, ?_, ?_⟩
  · simp [handleListToolsRequest, hscope]
  · rintro rfl
    exact ⟨"Search for relevant tools across ", " using a natural language query.", rfl⟩
  · rintro g rfl
    exact ⟨"Search for relevant tools across ", " using a natural language query.", rfl⟩

/-- C4 witness: a session bound to group `$smart/test-group` lists
exactly the two meta-tools with the group-interpolated description. -/
theorem C4_smart_tools_list_witness :
    ∃ t1 t2,
      handleListToolsRequest (HubState.mk [("sess", ⟨some "$smart/test-group"⟩)] [] 0) "sess"
        = some [t1, t2] ∧
      t1.name = "search_tools" ∧ t2.name = "call_tool" ∧
      ((some "test-group" : Option String) = none →
        ∃ pre post, t1.description = pre ++ "all available servers" ++ post) ∧
      (∀ g, (some "test-group" : Option String) = some g →
        ∃ pre post, t1.description
          = pre ++ ("servers in the \"" ++ g ++ "\" group") ++ post) :=
  C4_smart_tools_list (HubState.mk [("sess", ⟨some "$smart/test-group"⟩)] [] 0) "sess"
    (some "test-group") (by decide)

/-- C5: a smart-scope `tools/call` of `search_tools` without a query (or
with an empty one) yields `isError=true` with a content text containing
"Query parameter is required" and performs no vector search; with a
query present, the vector search is invoked — with no server filter in
the global smart scope and with the group member list in a group smart
scope. -/
theorem C5_search_tools_gate
    (searchToolsByVector : String → Nat → Option (List String) → List String)
    (getServersInGroup : String → List String)
    (st : HubState) (sessionId : String) (scope : Option String)
    (hscope : smartScopeOfGroup (getGroup st sessionId) = some scope) :
    (∀ args : SmartToolArgs, args.query = none ∨ args.query = some "" →
      ∃ out, handleCallToolRequest searchToolsByVector getServersInGroup st sessionId
          "search_tools" args = some out ∧
        out.isError = true ∧
        (∃ pre post, out.contentText = pre ++ "Query parameter is required" ++ post) ∧
        out.searchCall = none) ∧
    (∀ args q, args.query = some q → q ≠ "" →
      ∃ out, handleCallToolRequest searchToolsByVector getServersInGroup st sessionId
          "search_tools" args = some out ∧
        out.isError = false ∧
        out.searchCall
          = some ⟨q, min (args.limit.getD 10) 50, scope.map getServersInGroup⟩ ∧
        (scope = none →
          out.searchCall = some ⟨q, min (args.limit.getD 10) 50, none⟩) ∧
        (∀ g, scope = some g →
          out.searchCall
            = some ⟨q, min (args.limit.getD 10) 50, some (getServersInGroup g)⟩)) := by
  constructor
  · intro args hq
    refine ⟨⟨true, "Error: Query parameter is required. Please provide a search query.",
      none⟩, ?_, rfl, ⟨"Error: ", ". Please provide a search query.", rfl⟩, rfl⟩
    rcases hq with hq | hq <;>
      simp [handleCallToolRequest, hscope, handleCallSearchTools, hq]
  · intro args q hq hne
    refine ⟨⟨false,
      String.intercalate "\n"
        (searchToolsByVector q (min (args.limit.getD 10) 50) (scope.map getServersInGroup)),
      some ⟨q, min (args.limit.getD 10) 50, scope.map getServersInGroup⟩⟩,
      ?_, rfl, rfl, ?_, ?_⟩
    · simp [handleCallToolRequest, hscope, handleCallSearchTools, hq, hne]
    · rintro rfl
      rfl
    · rintro g rfl
      rfl

/-- C5 witness: under the `$smart/test-group` session, a `search_tools`
call without a query errors and searches nothing, and a call with a
query invokes the search restricted to the group's two member
servers. -/
theorem C5_search_tools_gate_witness :
    (∃ out, handleCallToolRequest (fun _ _ _ => ["r1"])
        (fun g => if g = "test-group" then ["server1", "server2"] else [])
        (HubState.mk [("sess", ⟨some "$smart/test-group"⟩)] [] 0) "sess"
        "search_tools" (SmartToolArgs.mk none (some 10)) = some out ∧
      out.isError = true ∧
      (∃ pre post, out.contentText = pre ++ "Query parameter is required" ++ post) ∧
      out.searchCall = none) ∧
    (∃ out, handleCallToolRequest (fun _ _ _ => ["r1"])
        (fun g => if g = "test-group" then ["server1", "server2"] else [])
        (HubState.mk [("sess", ⟨some "$smart/test-group"⟩)] [] 0) "sess"
        "search_tools" (SmartToolArgs.mk (some "test query") (some 10)) = some out ∧
      out.isError = false ∧
      out.searchCall = some ⟨"test query", 10, some ["server1", "server2"]⟩) := by
  have hc := C5_search_tools_gate (fun _ _ _ => ["r1"])
    (fun g => if g = "test-group" then ["server1", "server2"] else [])
    (HubState.mk [("sess", ⟨some "$smart/test-group"⟩)] [] 0) "sess"
    (some "test-group") (by decide)
  refine ⟨hc.1 (SmartToolArgs.mk none (some 10)) (Or.inl rfl), ?_⟩
  obtain ⟨out, hout, herr, hcall, _, hgroup⟩ :=
    hc.2 (SmartToolArgs.mk (some "test query") (some 10)) "test query" rfl (by decide)
  exact ⟨out, hout, herr, by rw [hgroup "test-group" rfl]; decide⟩

/-- C6: `expandEnvVars` replaces a `${NAME}` or `$NAME` reference by the
environment value of `NAME` (empty when unset) and leaves strings
without references (no `$` anywhere) unchanged; `replaceEnvVars`
applies the expansion to every string, recurses through arrays and
objects, preserves the non-string leaves (numbers, booleans, null)
unchanged, and is the identity on any value containing no `$`. -/
theorem C6_env_expansion (env : String → Option String) (name : String) (s : String)
    (q : Int) (b : Bool) (items : List ConfigValue)
    (fields : List (String × ConfigValue)) (v : ConfigValue) :
    (isValidEnvName name = true →
      expandEnvVars env ("$\x7b" ++ name ++ "\x7d") = (env name).getD "" ∧
      expandEnvVars env ("$" ++ name) = (env name).getD "") ∧
    (s.data.all (fun c => c ≠ '$') = true → expandEnvVars env s = s) ∧
    replaceEnvVars env (.str s) = .str (expandEnvVars env s) ∧
    replaceEnvVars env (.num q) = .num q ∧
    replaceEnvVars env (.bool b) = .bool b ∧
    replaceEnvVars env .null = .null ∧
    replaceEnvVars env (.arr items) = .arr (items.map (replaceEnvVars env)) ∧
    replaceEnvVars env (.obj fields)
      = .obj (fields.map (fun f => (f.1, replaceEnvVars env f.2))) ∧
    (noDollar v = true → replaceEnvVars env v = v) := by
  refine ⟨fun h => ⟨expandEnvVars_braced env name h, expandEnvVars_plain env name h⟩,
    expandEnvVars_no_dollar env s, ?_, ?_, ?_, ?_, replaceEnvVars_arr env items,
    replaceEnvVars_obj env fields, noDollar_replace env v⟩
  · rw [replaceEnvVars]
  · rw [replaceEnvVars]
  · rw [replaceEnvVars]
  · rw [replaceEnvVars]

/-- C6 witness: with `TEST_VAR` set to `test-value` and `UNSET_VAR`
unset, both reference forms expand, the unset variable expands to the
empty string, a plain string survives, and a numeric leaf is
preserved. -/
theorem C6_env_expansion_witness :
    (isValidEnvName "TEST_VAR" = true ∧
      expandEnvVars (fun n => if n = "TEST_VAR" then some "test-value" else none)
        "${TEST_VAR}" = "test-value" ∧
      expandEnvVars (fun n => if n = "TEST_VAR" then some "test-value" else none)
        "$TEST_VAR" = "test-value") ∧
    (isValidEnvName "UNSET_VAR" = true ∧
      expandEnvVars (fun n => if n = "TEST_VAR" then some "test-value" else none)
        "${UNSET_VAR}" = "") ∧
    ("plain-string".data.all (fun c => c ≠ '$') = true ∧
      expandEnvVars (fun n => if n = "TEST_VAR" then some "test-value" else none)
        "plain-string" = "plain-string") ∧
    (noDollar (.num 3) = true ∧
      replaceEnvVars (fun n => if n = "TEST_VAR" then some "test-value" else none)
        (.num 3) = .num 3) := by
  have hc := C6_env_expansion
    (fun n => if n = "TEST_VAR" then some "test-value" else none)
    "TEST_VAR" "plain-string" 3 true [] [] (.num 3)
  have hu := C6_env_expansion
    (fun n => if n = "TEST_VAR" then some "test-value" else none)
    "UNSET_VAR" "plain-string" 3 true [] [] (.num 3)
  have hv := hc.1 (by decide)
  have hw := hu.1 (by decide)
  have hnd : noDollar (.num 3) = true := by simp [noDollar]
  exact ⟨⟨by decide, hv.1, hv.2⟩, ⟨by decide, hw.1⟩,
    ⟨by decide, hc.2.1 (by decide)⟩, ⟨hnd, hc.2.2.2.2.2.2.2.2 hnd⟩⟩

end MCPHub
